import Mathlib

/-!
Shallow embedding of `ScoutingProcessor.py`: the Sequence Parser
(`parse_sequence`), the Record Normalizer (`normalize`) and the Team
Aggregator (`summarize`), together with theorems checking the spec's claims
against them.

Modelling conventions:
* A pandas cell is a `Value`: `na` (missing / NaN), a string, or a number.
  Numbers are modelled as exact rationals; IEEE-float artifacts
  (`inf` / `nan` literals, exponent notation, rounding) are outside the model.
* Python string operations (`split`, `strip`, `isdigit`, `in`) are modelled
  structurally on the character list of the string (`splitOnChar`,
  `trimChars`, `isDigitChars`, `List.contains`), for ASCII text.
* `pd.to_numeric(-, errors="coerce")` on one cell is `toNumeric?`
  (`none` = NaN).
* Python `int(...)` applied to a float, and numpy `astype(int)`, truncate
  toward zero: `truncRat`.
* Rational values are built with `mkRat` / `Rat.divInt`; division is
  `ratDiv`, proved equal to ordinary division (`ratDiv_eq_div`).
* Whether the optional cycle-count columns exist is a property of the whole
  DataFrame, not of a row, so `RawTable` carries three presence flags.
-/

namespace Scouting

/-- One raw cell: missing/NaN, a string, or a number (exact rational). -/
inductive Value where
  | na : Value
  | str : String → Value
  | num : Rat → Value
deriving DecidableEq

/-- Model of Python `str.split(sep)` for a one-character separator:
`"".split(",") = [""]`, `",".split(",") = ["", ""]`. -/
def splitOnChar (sep : Char) : List Char → List (List Char)
  | [] => [[]]
  | c :: cs =>
      if c = sep then [] :: splitOnChar sep cs
      else
        match splitOnChar sep cs with
        | [] => [[c]]
        | t :: ts => (c :: t) :: ts

/-- Model of Python `str.strip()`: drop whitespace from both ends. -/
def trimChars (cs : List Char) : List Char :=
  ((cs.dropWhile Char.isWhitespace).reverse.dropWhile Char.isWhitespace).reverse

/-- Model of Python `str.isdigit()` on ASCII strings: nonempty and all
decimal digits. -/
def isDigitChars (cs : List Char) : Bool :=
  !cs.isEmpty && cs.all Char.isDigit

/-- Numeric value of a digit string; model of Python `int(...)` on a
digit-only string (`int("007") = 7`). -/
def natOfDigitChars (cs : List Char) : Nat :=
  cs.foldl (fun a c => a * 10 + (c.toNat - 48)) 0

/-- Model of Python `float(...)` on an unsigned decimal literal: either a
digit string, or `d*.d*` with at least one digit (`"2."`, `".5"`, `"2.9"`).
Exponent, `inf`/`nan` and underscore forms are not modelled. The exact
rational value `(A·10^k + B) / 10^k` is returned. -/
def unsignedFloat? (cs : List Char) : Option Rat :=
  match splitOnChar '.' cs with
  | [a] => if isDigitChars a then some (mkRat (natOfDigitChars a) 1) else none
  | [a, b] =>
      if a.all Char.isDigit && b.all Char.isDigit && (!a.isEmpty || !b.isEmpty) then
        some (mkRat (natOfDigitChars a * 10 ^ b.length + natOfDigitChars b) (10 ^ b.length))
      else none
  | _ => none

/-- Model of Python `float(...)` on a string: surrounding whitespace is
stripped, then an optional sign followed by an unsigned decimal literal.
`none` models a `ValueError`. -/
def pyFloat? (cs : List Char) : Option Rat :=
  match trimChars cs with
  | [] => none
  | c :: rest =>
      if c = '-' then (unsignedFloat? rest).map (fun q => mkRat (-q.num) q.den)
      else if c = '+' then unsignedFloat? rest
      else unsignedFloat? (c :: rest)

/-- Truncation toward zero; model of Python `int()` on a float and of numpy
`astype(int)`. -/
def truncRat (q : Rat) : Int :=
  q.num.tdiv (q.den : Int)

/-- Exact rational division; `ratDiv_eq_div` below shows it is ordinary
division. Models float division in exact arithmetic. -/
def ratDiv (a b : Rat) : Rat :=
  Rat.divInt (a.num * b.den) ((a.den : Int) * b.num)

theorem ratDiv_eq_div (a b : Rat) : ratDiv a b = a / b := by
  rw [ratDiv, Rat.divInt_eq_div]
  rcases eq_or_ne b 0 with hb | hb
  · subst hb
    simp
  · have hbn : (b.num : ℚ) ≠ 0 := Int.cast_ne_zero.mpr (Rat.num_ne_zero.mpr hb)
    have had : ((a.den : ℚ)) ≠ 0 := Nat.cast_ne_zero.mpr a.den_nz
    have hbd : ((b.den : ℚ)) ≠ 0 := Nat.cast_ne_zero.mpr b.den_nz
    conv_rhs => rw [← Rat.num_div_den a, ← Rat.num_div_den b]
    push_cast
    field_simp

/-- Model of `ScoutingProcessor.parse_sequence`:
missing value → `[]`; a string containing a comma → the integer parses of
its digit-only (after stripping) comma-separated tokens; anything else →
`int(float(value))` as a one-element list when positive, else `[]`
(parse failure → `[]`). -/
def parse_sequence (v : Value) : List Int :=
  match v with
  | .na => []
  | .str s =>
      if s.data.contains ',' then
        ((splitOnChar ',' s.data).filter (fun x => isDigitChars (trimChars x))).map
          (fun x => (natOfDigitChars (trimChars x) : Int))
      else
        match pyFloat? s.data with
        | some q => if 0 < truncRat q then [truncRat q] else []
        | none => []
  | .num q => if 0 < truncRat q then [truncRat q] else []

example : parse_sequence (.str "1,2,3") = [1, 2, 3] := by decide
example : parse_sequence (.str "0") = [] := by decide
example : parse_sequence (.str "5") = [5] := by decide
example : parse_sequence (.str "") = [] := by decide
example : parse_sequence (.str "1, ,3") = [1, 3] := by decide
example : parse_sequence (.str "2.9") = [2] := by decide
example : parse_sequence (.str "0.5") = [] := by decide
example : parse_sequence (.str "-3") = [] := by decide
example : parse_sequence (.num (mkRat 29 10)) = [2] := by decide
example : parse_sequence .na = [] := by decide

/-- Model of `pd.to_numeric(-, errors="coerce")` on one cell: a number stays
itself, a string is parsed as a decimal number, anything else (including a
missing value) becomes NaN (`none`). -/
def toNumeric? (v : Value) : Option Rat :=
  match v with
  | .na => none
  | .num q => some q
  | .str s => pyFloat? s.data

/-- Model of `pd.to_numeric(col, errors="coerce").fillna(0).astype(int)`
applied to one cell (used for `Match Number` and `Team Number`). -/
def coerceInt (v : Value) : Int :=
  match toNumeric? v with
  | some q => truncRat q
  | none => 0

/-- The fixed endgame scoring table `ENDGAME_POINTS`. -/
def ENDGAME_POINTS : List (String × Int) :=
  [("Partially", 5), ("Fully", 10), ("Double Park Beneficiary", 10),
   ("Double Park Dealer", 20)]

/-- Points per scored piece (`SCORE_PER_PIECE`). -/
def SCORE_PER_PIECE : Int := 3

/-- Model of `normalize`'s inner `endgame_value`: for a string, the first
semicolon-delimited, stripped, nonempty part; the empty string otherwise. -/
def endgame_value (v : Value) : String :=
  match v with
  | .str s =>
      match ((splitOnChar ';' s.data).map trimChars).filter (fun p => !p.isEmpty) with
      | [] => ""
      | p :: _ => ⟨p⟩
  | _ => ""

/-- Model of `.map(ENDGAME_POINTS).fillna(0)` on one category label. -/
def endgameScore (cat : String) : Int :=
  match ENDGAME_POINTS.lookup cat with
  | some p => p
  | none => 0

/-- One raw input row. The three cycle cells are only consulted when the
corresponding column exists in the table (`RawTable` flags). -/
structure RawRow where
  matchNumber : Value
  teamNumber : Value
  autoNear : Value
  autoFar : Value
  teleNear : Value
  teleFar : Value
  endGame : Value
  autoCycles : Value
  teleCycles : Value
  totalCycles : Value
deriving DecidableEq

/-- The concatenated input DataFrame: which optional cycle-count columns
exist, plus the rows in file-then-row order. -/
structure RawTable where
  hasAutoCycles : Bool
  hasTeleCycles : Bool
  hasTotalCycles : Bool
  rows : List RawRow
deriving DecidableEq

/-- One normalized record, the derived columns of `normalize`. -/
structure NormRow where
  matchNumber : Int
  teamNumber : Int
  auto_near_seq : List Int
  auto_far_seq : List Int
  tele_near_seq : List Int
  tele_far_seq : List Int
  autoNearScored : Int
  autoFarScored : Int
  teleNearScored : Int
  teleFarScored : Int
  autoOffTarget : Int
  teleOffTarget : Int
  autoCycles : Int
  teleCycles : Int
  totalCycles : Int
  endGameNorm : String
  end_game_score : Int
  piece_score : Int
  total_score : Int
deriving DecidableEq

/-- Model of `normalize`'s inner `combine_off_target`: per-attempt shortfall
`3 - v` over the near sequence followed by the far sequence, unclamped. -/
def combine_off_target (nearSeq farSeq : List Int) : List Int :=
  nearSeq.map (fun v => 3 - v) ++ farSeq.map (fun v => 3 - v)

/-- The per-row work of `normalize`, assuming the three optional cycle
columns exist in the table (otherwise `normalize` aborts, see `normalize`).
Each cycle count is the explicit cell when `to_numeric` can coerce it
(truncated by `astype(int)`), else that phase's total attempt count
(`fillna` with the sequence lengths); the explicit total-cycles cell
likewise wins over auto+tele. -/
def normalizeRow (r : RawRow) : NormRow :=
  let an := parse_sequence r.autoNear
  let af := parse_sequence r.autoFar
  let tn := parse_sequence r.teleNear
  let tf := parse_sequence r.teleFar
  let aCyc : Int :=
    match toNumeric? r.autoCycles with
    | some q => truncRat q
    | none => (an.length : Int) + (af.length : Int)
  let tCyc : Int :=
    match toNumeric? r.teleCycles with
    | some q => truncRat q
    | none => (tn.length : Int) + (tf.length : Int)
  let totCyc : Int :=
    match toNumeric? r.totalCycles with
    | some q => truncRat q
    | none => aCyc + tCyc
  let eg := endgameScore (endgame_value r.endGame)
  let piece := (an.sum + af.sum + tn.sum + tf.sum) * SCORE_PER_PIECE
  { matchNumber := coerceInt r.matchNumber
    teamNumber := coerceInt r.teamNumber
    auto_near_seq := an
    auto_far_seq := af
    tele_near_seq := tn
    tele_far_seq := tf
    autoNearScored := an.sum
    autoFarScored := af.sum
    teleNearScored := tn.sum
    teleFarScored := tf.sum
    autoOffTarget := (combine_off_target an af).sum
    teleOffTarget := (combine_off_target tn tf).sum
    autoCycles := aCyc
    teleCycles := tCyc
    totalCycles := totCyc
    endGameNorm := endgame_value r.endGame
    end_game_score := eg
    piece_score := piece
    total_score := piece + eg }

/-- Model of `normalize` over the whole table. When any of the optional
cycle columns is absent, `df.get(col, 0)` yields the scalar default `0`,
`pd.to_numeric` keeps it a scalar, and the `.fillna` attribute access on
that scalar raises `AttributeError`, aborting the run: modelled as
`Except.error`. -/
def normalize (t : RawTable) : Except String (List NormRow) :=
  if t.hasAutoCycles && t.hasTeleCycles && t.hasTotalCycles then
    .ok (t.rows.map normalizeRow)
  else
    .error "AttributeError: scalar default from df.get has no attribute fillna"

/-- One row of the team summary produced by `summarize`. -/
structure TeamSummary where
  teamNumber : Int
  «matches» : Nat
  auto_near_sum : Int
  auto_far_sum : Int
  tele_near_sum : Int
  tele_far_sum : Int
  auto_cycles_sum : Int
  tele_cycles_sum : Int
  total_cycles_sum : Int
  end_score_sum : Int
  total_score_sum : Int
  auto_near_avg : Rat
  auto_far_avg : Rat
  tele_near_avg : Rat
  tele_far_avg : Rat
  auto_cycles_avg : Rat
  tele_cycles_avg : Rat
  total_cycles_avg : Rat
  end_score_avg : Rat
  total_score_avg : Rat
  auto_hit_rate : Rat
  tele_hit_rate : Rat
deriving DecidableEq

/-- The group of a team's normalized rows, in order. -/
def groupOf (rows : List NormRow) (t : Int) : List NormRow :=
  rows.filter (fun r => r.teamNumber = t)

/-- Hit-rate denominator: the cycle sum times 3, after the source's
`.replace(0, 1)` on that series. Because every 0 has been replaced by 1
before dividing, the division never produces `inf`, and the subsequent
`.replace([inf, -inf], 0)` in the source is a no-op. -/
def hitRateDen (cycleSum : Int) : Int :=
  if cycleSum * 3 = 0 then 1 else cycleSum * 3

/-- One team's summary row: `nunique` match count, plain sums over all of
the group's rows, sum/match-count averages, and the hit rates. -/
def mkTeamSummary (rows : List NormRow) (t : Int) : TeamSummary :=
  let g := groupOf rows t
  let m := ((g.map (fun r => r.matchNumber)).dedup).length
  let anS := (g.map (fun r => r.autoNearScored)).sum
  let afS := (g.map (fun r => r.autoFarScored)).sum
  let tnS := (g.map (fun r => r.teleNearScored)).sum
  let tfS := (g.map (fun r => r.teleFarScored)).sum
  let acS := (g.map (fun r => r.autoCycles)).sum
  let tcS := (g.map (fun r => r.teleCycles)).sum
  let totcS := (g.map (fun r => r.totalCycles)).sum
  let egS := (g.map (fun r => r.end_game_score)).sum
  let totS := (g.map (fun r => r.total_score)).sum
  { teamNumber := t
    «matches» := m
    auto_near_sum := anS
    auto_far_sum := afS
    tele_near_sum := tnS
    tele_far_sum := tfS
    auto_cycles_sum := acS
    tele_cycles_sum := tcS
    total_cycles_sum := totcS
    end_score_sum := egS
    total_score_sum := totS
    auto_near_avg := ratDiv (anS : Rat) (m : Rat)
    auto_far_avg := ratDiv (afS : Rat) (m : Rat)
    tele_near_avg := ratDiv (tnS : Rat) (m : Rat)
    tele_far_avg := ratDiv (tfS : Rat) (m : Rat)
    auto_cycles_avg := ratDiv (acS : Rat) (m : Rat)
    tele_cycles_avg := ratDiv (tcS : Rat) (m : Rat)
    total_cycles_avg := ratDiv (totcS : Rat) (m : Rat)
    end_score_avg := ratDiv (egS : Rat) (m : Rat)
    total_score_avg := ratDiv (totS : Rat) (m : Rat)
    auto_hit_rate := ratDiv ((anS + afS : Int) : Rat) ((hitRateDen acS : Int) : Rat)
    tele_hit_rate := ratDiv ((tnS + tfS : Int) : Rat) ((hitRateDen tcS : Int) : Rat) }

/-- Insertion step of the sort used to model pandas' ascending group order. -/
def insertSorted (x : Int) : List Int → List Int
  | [] => [x]
  | y :: ys => if x ≤ y then x :: y :: ys else y :: insertSorted x ys

/-- Ascending insertion sort on integers, modelling the sorted key order of
`groupby(sort=True)` / `sort_values`. -/
def sortInts (l : List Int) : List Int :=
  l.foldr insertSorted []

/-- Model of `summarize`: one summary row per distinct team number,
ascending by team number. -/
def summarize (rows : List NormRow) : List TeamSummary :=
  (sortInts ((rows.map (fun r => r.teamNumber)).dedup)).map (mkTeamSummary rows)

/-! ### Helper lemmas -/

theorem mem_insertSorted {x a : Int} {l : List Int} :
    a ∈ insertSorted x l ↔ a = x ∨ a ∈ l := by
  induction l with
  | nil => simp [insertSorted]
  | cons y ys ih =>
      by_cases h : x ≤ y
      · simp [insertSorted, h]
      · simp [insertSorted, h, ih]
        tauto

theorem mem_sortInts {a : Int} {l : List Int} : a ∈ sortInts l ↔ a ∈ l := by
  induction l with
  | nil => simp [sortInts]
  | cons y ys ih =>
      show a ∈ insertSorted y (sortInts ys) ↔ _
      rw [mem_insertSorted, ih]
      simp

theorem parse_sequence_nonneg (v : Value) : ∀ x ∈ parse_sequence v, 0 ≤ x := by
  intro x hx
  match v with
  | .na => simp [parse_sequence] at hx
  | .str s =>
      rw [parse_sequence] at hx
      split at hx
      · rcases List.mem_map.mp hx with ⟨tk, _, rfl⟩
        exact Int.ofNat_nonneg _
      · split at hx
        · split at hx
          · next hpos =>
              rcases List.mem_singleton.mp hx with rfl
              exact le_of_lt hpos
          · simp at hx
        · simp at hx
  | .num q =>
      rw [parse_sequence] at hx
      split at hx
      · next hpos =>
          rcases List.mem_singleton.mp hx with rfl
          exact le_of_lt hpos
      · simp at hx

theorem endgameScore_eq (s : String) :
    endgameScore s =
      if s = "Partially" then 5
      else if s = "Fully" then 10
      else if s = "Double Park Beneficiary" then 10
      else if s = "Double Park Dealer" then 20
      else 0 := by
  by_cases h1 : s = "Partially"
  · subst h1; decide
  by_cases h2 : s = "Fully"
  · subst h2; decide
  by_cases h3 : s = "Double Park Beneficiary"
  · subst h3; decide
  by_cases h4 : s = "Double Park Dealer"
  · subst h4; decide
  have e1 : (s == "Partially") = false := beq_eq_false_iff_ne.mpr h1
  have e2 : (s == "Fully") = false := beq_eq_false_iff_ne.mpr h2
  have e3 : (s == "Double Park Beneficiary") = false := beq_eq_false_iff_ne.mpr h3
  have e4 : (s == "Double Park Dealer") = false := beq_eq_false_iff_ne.mpr h4
  simp [endgameScore, ENDGAME_POINTS, List.lookup, e1, e2, e3, e4, h1, h2, h3, h4]

theorem endgameScore_nonneg (s : String) : 0 ≤ endgameScore s := by
  rw [endgameScore_eq]
  split <;> try norm_num
  split <;> try norm_num
  split <;> try norm_num
  split <;> norm_num

theorem truncRat_eq_zero {q : Rat} (h0 : 0 < q) (h1 : q < 1) : truncRat q = 0 := by
  have hnum : 0 < q.num := Rat.num_pos.mpr h0
  have hlt : q.num < (q.den : Int) := Rat.lt_one_iff_num_lt_denom.mp h1
  obtain ⟨m, hm'⟩ := Int.eq_ofNat_of_zero_le (le_of_lt hnum)
  have hm : m < q.den := by
    rw [hm'] at hlt
    exact_mod_cast hlt
  unfold truncRat
  rw [hm']
  show Int.ofNat (m / q.den) = 0
  rw [Nat.div_eq_of_lt hm]
  rfl

theorem combine_off_target_sum (a b : List Int) :
    (combine_off_target a b).sum = ((a ++ b).map (fun v => 3 - v)).sum := by
  rw [combine_off_target, List.map_append]

/-! ### Concrete inputs used by the claims -/

/-- A row whose explicit `Auto Cycles` cell is 0 while its auto-near
sequence scores 6: exercises the zero-cycle hit-rate path. -/
def rowZeroCycles : RawRow :=
  { matchNumber := .num 1, teamNumber := .num 1,
    autoNear := .str "3,3", autoFar := .na, teleNear := .na, teleFar := .na,
    endGame := .na, autoCycles := .num 0, teleCycles := .na, totalCycles := .na }

/-- `rowZeroCycles` under a table that has all three cycle columns. -/
def tblZeroCycles : RawTable := ⟨true, true, true, [rowZeroCycles]⟩

/-- A row with no explicit cycle cells: two auto-near attempts parsed from
`"1,2"`, one tele-near legacy attempt, endgame `Fully`. -/
def rowFallback : RawRow :=
  { matchNumber := .num 1, teamNumber := .num 7,
    autoNear := .str "1,2", autoFar := .na, teleNear := .num 3, teleFar := .na,
    endGame := .str "Fully", autoCycles := .na, teleCycles := .na, totalCycles := .na }

/-- `rowFallback` in a table missing the `Auto Cycles` column. -/
def tblMissingCycleCols : RawTable := ⟨false, true, true, [rowFallback]⟩

/-- `rowFallback` in a table that has all three cycle columns. -/
def tblWithCycleCols : RawTable := ⟨true, true, true, [rowFallback]⟩

/-- A row whose endgame field holds two semicolon-separated labels. -/
def rowMultiEndgame : RawRow :=
  { matchNumber := .num 1, teamNumber := .num 2,
    autoNear := .na, autoFar := .na, teleNear := .na, teleFar := .na,
    endGame := .str "Fully; Partially", autoCycles := .na, teleCycles := .na,
    totalCycles := .na }

/-- A row with an attempt value above 3 (`"4,5"`): negative shortfalls. -/
def rowOverThree : RawRow :=
  { matchNumber := .num 1, teamNumber := .num 3,
    autoNear := .str "4,5", autoFar := .na, teleNear := .na, teleFar := .na,
    endGame := .na, autoCycles := .na, teleCycles := .na, totalCycles := .na }

/-- A row whose team and match identifiers fail integer coercion. -/
def rowBadIds : RawRow :=
  { matchNumber := .str "abc", teamNumber := .str "?!",
    autoNear := .str "3", autoFar := .na, teleNear := .na, teleFar := .na,
    endGame := .str "Fully", autoCycles := .na, teleCycles := .na, totalCycles := .na }

/-- `rowBadIds` under a table with all three cycle columns. -/
def tblBadIds : RawTable := ⟨true, true, true, [rowBadIds]⟩

/-- `rowBadIds` under a table with no cycle columns at all. -/
def tblBadIdsNoCycleCols : RawTable := ⟨false, false, false, [rowBadIds]⟩

/-- The spec's section-8 end-to-end example, first row of team 100. -/
def rowTeam100M1 : RawRow :=
  { matchNumber := .num 1, teamNumber := .num 100,
    autoNear := .str "3,3", autoFar := .str "0", teleNear := .str "3",
    teleFar := .str "0", endGame := .str "Fully",
    autoCycles := .na, teleCycles := .na, totalCycles := .na }

/-- The spec's section-8 end-to-end example, second row of team 100. -/
def rowTeam100M2 : RawRow :=
  { matchNumber := .num 2, teamNumber := .num 100,
    autoNear := .str "3", autoFar := .str "3", teleNear := .str "0",
    teleFar := .str "0", endGame := .str "Partially",
    autoCycles := .na, teleCycles := .na, totalCycles := .na }

/-- The two section-8 rows, normalized, plus a duplicate submission of the
first row (same team, same match) to exercise duplicate handling. -/
def rowsWithDuplicate : List NormRow :=
  [normalizeRow rowTeam100M1, normalizeRow rowTeam100M1, normalizeRow rowTeam100M2]

/-! ### The Sequence Parser restated in the words of the spec -/

/-- A stripped token that is a non-negative integer, parsed to that integer;
`none` drops the token. -/
def tokenNat? (cs : List Char) : Option Nat :=
  if isDigitChars cs then some (natOfDigitChars cs) else none

/-- The Sequence Parser as the spec words it: empty sequence for
absent/unparseable input; for a comma-containing string, the in-order
integer parses of exactly those stripped tokens that are non-negative
integers; for a comma-free scalar, a one-element sequence holding the
parsed number when it is positive, else empty. -/
def specSequenceParser (v : Value) : List Int :=
  match v with
  | .na => []
  | .str s =>
      if s.data.contains ',' then
        (splitOnChar ',' s.data).filterMap
          (fun x => (tokenNat? (trimChars x)).map (fun n => (n : Int)))
      else
        match pyFloat? s.data with
        | some q => if 0 < truncRat q then [truncRat q] else []
        | none => []
  | .num q => if 0 < truncRat q then [truncRat q] else []

theorem filter_map_eq_filterMap_token (l : List (List Char)) :
    ((l.filter (fun x => isDigitChars (trimChars x))).map
        (fun x => (natOfDigitChars (trimChars x) : Int))) =
      l.filterMap (fun x => (tokenNat? (trimChars x)).map (fun n => (n : Int))) := by
  induction l with
  | nil => rfl
  | cons a l ih =>
      by_cases h : isDigitChars (trimChars a)
      · simp [List.filter_cons, List.filterMap_cons, tokenNat?, h, ih]
      · simp [List.filter_cons, List.filterMap_cons, tokenNat?, h, ih]

/-! ### Claim theorems -/

/-- C1 (code bug): on `tblZeroCycles` the auto cycle sum is 0 while the
near+far sum is 6, and the exported `auto_hit_rate` is 6, not the claimed 0:
the source replaces the 0 denominator by 1 *before* dividing, so the
division yields the raw sum and the subsequent `inf → 0` recovery never
fires. The tele phase of the same team (cycle sum 0 with score sum 0) shows
the only situation in which 0 is still produced. -/
theorem c1_hit_rate_zero_cycles_eval :
    normalize tblZeroCycles = .ok [normalizeRow rowZeroCycles] ∧
    (summarize [normalizeRow rowZeroCycles]).map
      (fun s => (s.auto_cycles_sum, s.auto_near_sum + s.auto_far_sum, s.auto_hit_rate,
                 s.tele_cycles_sum, s.tele_hit_rate)) = [(0, 6, 6, 0, 0)] :=
  ⟨rfl, by decide⟩

/-- C2 (code bug): when any optional cycle column is absent from the input
table, `normalize` aborts (the scalar default of `df.get` has no `fillna`),
instead of falling back to the sequence lengths as claimed. When the
columns are present the claimed per-cell behavior does hold: a missing cell
falls back to the phase's attempt count (`rowFallback`: 2 auto, 1 tele,
3 total) and an explicit numeric cell wins (`rowZeroCycles`: 0 despite two
auto attempts). -/
theorem c2_cycle_counts_eval :
    (normalize tblMissingCycleCols).toOption = none ∧
    normalize tblWithCycleCols = .ok [normalizeRow rowFallback] ∧
    (normalizeRow rowFallback).autoCycles = 2 ∧
    (normalizeRow rowFallback).teleCycles = 1 ∧
    (normalizeRow rowFallback).totalCycles = 3 ∧
    (normalizeRow rowZeroCycles).autoCycles = 0 :=
  ⟨rfl, rfl, by decide, by decide, by decide, by decide⟩

/-- C3: the Sequence Parser behaves exactly as the claim describes
(`specSequenceParser`), and on the claim's five sample inputs returns
`[1,2,3]`, `[]`, `[5]`, `[]`, `[]` (absent) and `[1,3]`. -/
theorem c3_sequence_parser_spec :
    (∀ v : Value, parse_sequence v = specSequenceParser v) ∧
    parse_sequence (.str "1,2,3") = [1, 2, 3] ∧
    parse_sequence (.str "0") = [] ∧
    parse_sequence (.str "5") = [5] ∧
    parse_sequence (.str "") = [] ∧
    parse_sequence .na = [] ∧
    parse_sequence (.str "1, ,3") = [1, 3] := by
  refine ⟨?_, by decide, by decide, by decide, by decide, by decide, by decide⟩
  intro v
  match v with
  | .na => rfl
  | .num q => rfl
  | .str s =>
      by_cases h : s.data.contains ',' = true
      · rw [parse_sequence, specSequenceParser, if_pos h, if_pos h]
        exact filter_map_eq_filterMap_token _
      · rw [parse_sequence, specSequenceParser, if_neg h, if_neg h]

/-- C4: the endgame category is the first semicolon-delimited, stripped,
nonempty token (empty string for a missing or non-string field or when no
such token exists), the score table is
Partially=5, Fully=10, Double Park Beneficiary=10, Double Park Dealer=20,
anything else 0, and a row with `End Game = "Fully; Partially"` scores 10. -/
theorem c4_endgame_category_and_score :
    (∀ s : String, endgame_value (.str s) =
        String.mk ((((splitOnChar ';' s.data).map trimChars).filter
          (fun p => !p.isEmpty)).headD [])) ∧
    endgame_value .na = "" ∧
    (∀ q : Rat, endgame_value (.num q) = "") ∧
    (∀ c : String, endgameScore c =
        if c = "Partially" then 5
        else if c = "Fully" then 10
        else if c = "Double Park Beneficiary" then 10
        else if c = "Double Park Dealer" then 20
        else 0) ∧
    endgame_value (.str "Fully; Partially") = "Fully" ∧
    (normalizeRow rowMultiEndgame).end_game_score = 10 := by
  refine ⟨?_, rfl, fun q => rfl, endgameScore_eq, by decide, by decide⟩
  intro s
  show (match ((splitOnChar ';' s.data).map trimChars).filter (fun p => !p.isEmpty) with
        | [] => "" | p :: _ => String.mk p) = _
  cases ((splitOnChar ';' s.data).map trimChars).filter (fun p => !p.isEmpty) with
  | nil => rfl
  | cons p ps => rfl

/-- C5: for every normalized record, each zone's scored total is the sum of
that zone's parsed sequence, the piece score is the sum of the four zone
sums times 3, and the total score is piece score plus endgame score. -/
theorem c5_piece_and_total_score (r : RawRow) :
    (normalizeRow r).autoNearScored = (parse_sequence r.autoNear).sum ∧
    (normalizeRow r).autoFarScored = (parse_sequence r.autoFar).sum ∧
    (normalizeRow r).teleNearScored = (parse_sequence r.teleNear).sum ∧
    (normalizeRow r).teleFarScored = (parse_sequence r.teleFar).sum ∧
    (normalizeRow r).piece_score =
      ((parse_sequence r.autoNear).sum + (parse_sequence r.autoFar).sum +
       (parse_sequence r.teleNear).sum + (parse_sequence r.teleFar).sum) * 3 ∧
    (normalizeRow r).total_score =
      (normalizeRow r).piece_score + (normalizeRow r).end_game_score :=
  ⟨rfl, rfl, rfl, rfl, rfl, rfl⟩

/-- C6: per phase, the off-target total is the sum of `3 - v` over the
near-then-far attempts, with no clamping; on `rowOverThree` (attempts 4 and
5) it is `(3-4) + (3-5) = -3`, a negative value that feeds through. -/
theorem c6_off_target_shortfall :
    (∀ r : RawRow,
      (normalizeRow r).autoOffTarget =
        ((parse_sequence r.autoNear ++ parse_sequence r.autoFar).map
          (fun v => 3 - v)).sum ∧
      (normalizeRow r).teleOffTarget =
        ((parse_sequence r.teleNear ++ parse_sequence r.teleFar).map
          (fun v => 3 - v)).sum) ∧
    (normalizeRow rowOverThree).autoOffTarget = -3 := by
  refine ⟨fun r => ⟨?_, ?_⟩, by decide⟩
  · exact combine_off_target_sum _ _
  · exact combine_off_target_sum _ _

/-- C7: every summary row's match count is the number of distinct match
identifiers in its team's group, every sum field adds over all of the
group's rows (duplicates included), and the match count is at least 1; on
`rowsWithDuplicate` (three rows of team 100, two distinct matches) the
summary shows 2 matches but sums all three total scores (37+37+23 = 97). -/
theorem c7_group_summary :
    (∀ (rows : List NormRow) (s : TeamSummary), s ∈ summarize rows →
      s.«matches» =
        (((groupOf rows s.teamNumber).map (fun r => r.matchNumber)).dedup).length ∧
      s.auto_near_sum = ((groupOf rows s.teamNumber).map (fun r => r.autoNearScored)).sum ∧
      s.auto_far_sum = ((groupOf rows s.teamNumber).map (fun r => r.autoFarScored)).sum ∧
      s.tele_near_sum = ((groupOf rows s.teamNumber).map (fun r => r.teleNearScored)).sum ∧
      s.tele_far_sum = ((groupOf rows s.teamNumber).map (fun r => r.teleFarScored)).sum ∧
      s.auto_cycles_sum = ((groupOf rows s.teamNumber).map (fun r => r.autoCycles)).sum ∧
      s.tele_cycles_sum = ((groupOf rows s.teamNumber).map (fun r => r.teleCycles)).sum ∧
      s.total_cycles_sum = ((groupOf rows s.teamNumber).map (fun r => r.totalCycles)).sum ∧
      s.end_score_sum = ((groupOf rows s.teamNumber).map (fun r => r.end_game_score)).sum ∧
      s.total_score_sum = ((groupOf rows s.teamNumber).map (fun r => r.total_score)).sum ∧
      1 ≤ s.«matches») ∧
    (summarize rowsWithDuplicate).map
      (fun s => (s.teamNumber, s.«matches», s.total_score_sum)) = [(100, 2, 97)] := by
  refine ⟨?_, by decide⟩
  intro rows s hs
  rcases List.mem_map.mp hs with ⟨t, ht, rfl⟩
  have hmem : t ∈ (rows.map (fun r => r.teamNumber)).dedup := mem_sortInts.mp ht
  have hmem' : t ∈ rows.map (fun r => r.teamNumber) := List.mem_dedup.mp hmem
  rcases List.mem_map.mp hmem' with ⟨r0, hr0, hrt⟩
  refine ⟨rfl, rfl, rfl, rfl, rfl, rfl, rfl, rfl, rfl, rfl, ?_⟩
  have hg : r0 ∈ groupOf rows t := by
    rw [groupOf, List.mem_filter]
    exact ⟨hr0, by simp [hrt]⟩
  have hne : (groupOf rows t).map (fun r => r.matchNumber) ≠ [] := by
    intro hcontra
    rw [List.map_eq_nil_iff.mp hcontra] at hg
    exact List.not_mem_nil _ hg
  have hd : ((groupOf rows t).map (fun r => r.matchNumber)).dedup ≠ [] := by
    intro hcontra
    exact hne ((List.dedup_eq_nil _).mp hcontra)
  show 1 ≤ (((groupOf rows t).map (fun r => r.matchNumber)).dedup).length
  exact Nat.one_le_iff_ne_zero.mpr (fun h0 => hd (List.length_eq_zero.mp h0))

theorem c7_witness :
    (mkTeamSummary rowsWithDuplicate 100) ∈ summarize rowsWithDuplicate ∧
    1 ≤ (mkTeamSummary rowsWithDuplicate 100).«matches» :=
  ⟨by decide,
    (c7_group_summary.1 rowsWithDuplicate (mkTeamSummary rowsWithDuplicate 100)
      (by decide)).2.2.2.2.2.2.2.2.2.2⟩

/-- C8 (corrected): provided the three optional cycle columns are present,
normalization succeeds and yields exactly one output record per input row
in the same order, and a row whose team or match identifier fails integer
coercion is retained with that identifier 0 (never dropped). Without the
columns the run aborts instead — see `c8_counterexample`. -/
theorem c8_rows_preserved (t : RawTable) (hA : t.hasAutoCycles = true)
    (hT : t.hasTeleCycles = true) (hTot : t.hasTotalCycles = true) :
    normalize t = .ok (t.rows.map normalizeRow) ∧
    (t.rows.map normalizeRow).length = t.rows.length ∧
    (∀ r : RawRow, toNumeric? r.teamNumber = none → (normalizeRow r).teamNumber = 0) ∧
    (∀ r : RawRow, toNumeric? r.matchNumber = none → (normalizeRow r).matchNumber = 0) := by
  refine ⟨?_, by simp, ?_, ?_⟩
  · rw [normalize, hA, hT, hTot]
    rfl
  · intro r h
    show coerceInt r.teamNumber = 0
    rw [coerceInt, h]
  · intro r h
    show coerceInt r.matchNumber = 0
    rw [coerceInt, h]

/-- C8, counterexample to the claim as stated: when the optional cycle
columns are absent, a one-row input yields no normalized output at all
(`normalize` aborts with an AttributeError), so the output record count is
not the input row count. -/
theorem c8_counterexample :
    (normalize tblBadIdsNoCycleCols).toOption = none ∧
    tblBadIdsNoCycleCols.rows.length = 1 :=
  ⟨rfl, rfl⟩

theorem c8_witness :
    tblBadIds.hasAutoCycles = true ∧ tblBadIds.hasTeleCycles = true ∧
    tblBadIds.hasTotalCycles = true ∧
    normalize tblBadIds = .ok (tblBadIds.rows.map normalizeRow) ∧
    (normalizeRow rowBadIds).teamNumber = 0 ∧
    (normalizeRow rowBadIds).matchNumber = 0 := by
  have h := c8_rows_preserved tblBadIds rfl rfl rfl
  exact ⟨rfl, rfl, rfl, h.1, h.2.2.1 rowBadIds (by decide), h.2.2.2 rowBadIds (by decide)⟩

/-- C9: the Sequence Parser never emits a negative attempt value
(comma-delimited tokens are kept only when digit-only; a legacy scalar only
when strictly positive), and the endgame table values are non-negative, so
every zone sum, endgame score, piece score and total score of every
normalized record is non-negative. -/
theorem c9_scores_nonneg :
    (∀ v : Value, ∀ x ∈ parse_sequence v, 0 ≤ x) ∧
    (∀ r : RawRow,
      0 ≤ (normalizeRow r).autoNearScored ∧ 0 ≤ (normalizeRow r).autoFarScored ∧
      0 ≤ (normalizeRow r).teleNearScored ∧ 0 ≤ (normalizeRow r).teleFarScored ∧
      0 ≤ (normalizeRow r).end_game_score ∧ 0 ≤ (normalizeRow r).piece_score ∧
      0 ≤ (normalizeRow r).total_score) := by
  have hsum : ∀ v : Value, 0 ≤ (parse_sequence v).sum :=
    fun v => List.sum_nonneg (parse_sequence_nonneg v)
  refine ⟨parse_sequence_nonneg, fun r => ?_⟩
  have hpiece : 0 ≤ (normalizeRow r).piece_score := by
    show 0 ≤ ((parse_sequence r.autoNear).sum + (parse_sequence r.autoFar).sum +
        (parse_sequence r.teleNear).sum + (parse_sequence r.teleFar).sum) * SCORE_PER_PIECE
    have hz := add_nonneg (add_nonneg (add_nonneg (hsum r.autoNear) (hsum r.autoFar))
      (hsum r.teleNear)) (hsum r.teleFar)
    exact mul_nonneg hz (by norm_num [SCORE_PER_PIECE])
  have heg : 0 ≤ (normalizeRow r).end_game_score :=
    endgameScore_nonneg (endgame_value r.endGame)
  exact ⟨hsum r.autoNear, hsum r.autoFar, hsum r.teleNear, hsum r.teleFar, heg, hpiece,
    add_nonneg hpiece heg⟩

theorem c9_witness :
    3 ∈ parse_sequence (Value.num 3) ∧ (0 : Int) ≤ 3 ∧
    0 ≤ (normalizeRow rowOverThree).total_score :=
  ⟨by decide, c9_scores_nonneg.1 (Value.num 3) 3 (by decide),
    (c9_scores_nonneg.2 rowOverThree).2.2.2.2.2.2⟩

/-- C10: a comma-free legacy scalar is truncated toward zero before the
positivity test: `"2.9"` parses to `[2]`, `"0.5"` to `[]`, and any numeric
value strictly between 0 and 1 yields the empty sequence. -/
theorem c10_legacy_truncation :
    parse_sequence (.str "2.9") = [2] ∧
    parse_sequence (.str "0.5") = [] ∧
    (∀ q : Rat, 0 < q → q < 1 → parse_sequence (.num q) = []) := by
  refine ⟨by decide, by decide, fun q h0 h1 => ?_⟩
  show (if 0 < truncRat q then [truncRat q] else []) = []
  rw [truncRat_eq_zero h0 h1]
  rfl

theorem c10_witness :
    (0 : Rat) < mkRat 1 2 ∧ mkRat 1 2 < 1 ∧
    parse_sequence (.num (mkRat 1 2)) = [] :=
  ⟨by decide, by decide, c10_legacy_truncation.2.2 (mkRat 1 2) (by decide) (by decide)⟩

end Scouting
